import Mathlib

/-!
# goth-square: the Square OAuth2 provider for goth

A shallow embedding of `square.go` (package `gothsquare`) and theorems about
its configuration builder (`newConfig`, `New`) and its provider methods
(`Name`, `SetName`, `BeginAuth`, `FetchUser`, `RefreshToken`).

Conventions of the embedding

* A Go `string` is a Lean `String`; the bytes of the Go string are the UTF-8
  bytes of the Lean string (`goBytes`).
* A Go result pair `(T, error)` is a Lean pair `T × Option String`; the
  error is represented by its message, `none` is the `nil` error.
* A call that does not return because of a run-time panic (failed type
  assertion, nil pointer dereference) yields `Outcome.panic`.
* A Go pointer that may be `nil` is an `Option`.
* A method with the receiver `p *Provider` is a function from the provider
  before the call to the result and the provider after the call (`Method`);
  `Provider.Name`, `Provider.BeginAuth` and `Provider.FetchUser` are the
  results of these, `Provider.SetName` is the provider after.
* The two library functions the provider calls on its configuration,
  `oauth2.Config.AuthCodeURL` and `url.Values.Encode` / `url.QueryEscape`,
  are embedded from the Go libraries `golang.org/x/oauth2` and `net/url`.
-/

namespace gothsquare

/-! ## Constants of `square.go` -/

/-- The authorization endpoint (`authURL`, square.go line 15). -/
def authURL : String := "https://connect.squareupsandbox.com/oauth2/authorize"

/-- The token endpoint (`tokenURL`, square.go line 16). -/
def tokenURL : String := "https://connect.squareupsandbox.com/oauth2/token"

/-- The scope `ScopeMerchantRead` (square.go line 57). -/
def ScopeMerchantRead : String := "MERCHANT_PROFILE_READ"

/-! ## Library types -/

/-- Go `time.Time`, as an offset from the zero instant; the zero value is `0`. -/
abbrev Time := Int

/-- Result of a call that either returns a value or panics. -/
inductive Outcome (α : Type) where
  | ret (a : α)
  | panic (msg : String)
  deriving DecidableEq, Repr

/-- Go `oauth2.Endpoint`: the two URLs of the authorization server. -/
structure Endpoint where
  AuthURL : String := ""
  TokenURL : String := ""
  deriving DecidableEq, Repr

/-- Go `oauth2.Config`, with the fields `newConfig` sets. -/
structure Config where
  ClientID : String := ""
  ClientSecret : String := ""
  RedirectURL : String := ""
  Endpoint : Endpoint := {}
  Scopes : List String := []
  deriving DecidableEq, Repr

/-- Go `oauth2.Token`, exported fields; every field defaults to its zero value. -/
structure Token where
  AccessToken : String := ""
  TokenType : String := ""
  RefreshToken : String := ""
  Expiry : Time := 0
  deriving DecidableEq, Repr

/-- Go `goth.User`; every field defaults to its zero value (`RawData` is a
nil map, represented by the empty list of entries). -/
structure User where
  RawData : List (String × String) := []
  Provider : String := ""
  Email : String := ""
  Name : String := ""
  FirstName : String := ""
  LastName : String := ""
  NickName : String := ""
  Description : String := ""
  UserID : String := ""
  AvatarURL : String := ""
  Location : String := ""
  AccessToken : String := ""
  AccessTokenSecret : String := ""
  RefreshToken : String := ""
  ExpiresAt : Time := 0
  IDToken : String := ""
  deriving DecidableEq, Repr

/-! ## Types of the package -/

/-- Modelled from the spec: the declaration of the `Session` type (its file is
not among the sources); the fields are the five of the data model, which are
also the five that `square.go` reads and writes. -/
structure Session where
  AuthURL : String := ""
  AccessToken : String := ""
  RefreshToken : String := ""
  ExpiresAt : Time := 0
  UserID : String := ""
  deriving DecidableEq, Repr

/-- A value of the interface type `goth.Session`, by its dynamic type: the nil
interface, a `*Session` of this package (the pointer itself may be nil), or a
value of some other implementation, of which only a type name is kept. -/
inductive GothSession where
  | nilInterface
  | square (s : Option Session)
  | foreign (typeName : String)
  deriving DecidableEq, Repr

/-- The struct `Provider` (square.go lines 94-101). `HTTPClient` is a pointer
to a client, of which only an identity is kept; `config` is a pointer. -/
structure Provider where
  ClientKey : String := ""
  Secret : String := ""
  CallbackURL : String := ""
  HTTPClient : Option Nat := none
  config : Option Config := none
  providerName : String := ""
  deriving DecidableEq, Repr

/-! ## `net/url`: query escaping and `Values` -/

/-- UTF-8 bytes of the code point `n`. -/
def utf8Bytes (n : Nat) : List Nat :=
  if n < 0x80 then [n]
  else if n < 0x800 then [0xC0 + n / 64, 0x80 + n % 64]
  else if n < 0x10000 then [0xE0 + n / 4096, 0x80 + n / 64 % 64, 0x80 + n % 64]
  else [0xF0 + n / 262144, 0x80 + n / 4096 % 64, 0x80 + n / 64 % 64, 0x80 + n % 64]

/-- The bytes of a Go string. -/
def goBytes (s : String) : List Nat :=
  s.data.flatMap (fun c => utf8Bytes c.toNat)

/-- Go `shouldEscape(c, encodeQueryComponent)` of `net/url`: only ASCII
letters, digits and `-`, `_`, `.`, `~` are left alone. -/
def shouldEscape (c : Nat) : Bool :=
  if (97 ≤ c ∧ c ≤ 122) ∨ (65 ≤ c ∧ c ≤ 90) ∨ (48 ≤ c ∧ c ≤ 57) then false
  else if c = 45 ∨ c = 95 ∨ c = 46 ∨ c = 126 then false
  else true

/-- Go `upperhex[i]`, with `upperhex = "0123456789ABCDEF"`. -/
def upperhex (i : Nat) : Char :=
  ['0', '1', '2', '3', '4', '5', '6', '7', '8', '9', 'A', 'B', 'C', 'D', 'E', 'F'].getD i '0'

/-- One byte of the loop of Go `escape(s, encodeQueryComponent)`: a space
becomes `+`, another byte to escape becomes `%XX`, the rest is copied. -/
def escapeByte (c : Nat) : List Char :=
  if shouldEscape c then
    if c = 32 then ['+'] else ['%', upperhex (c / 16), upperhex (c % 16)]
  else [Char.ofNat c]

/-- Go `url.QueryEscape`. -/
def QueryEscape (s : String) : String :=
  ⟨(goBytes s).flatMap escapeByte⟩

/-- Go `url.Values` restricted to single-valued keys (all that `AuthCodeURL`
builds): the entries of the map, kept in increasing key order, which is the
order in which `Encode` visits them. -/
abbrev Values := List (String × String)

/-- Go `Values.Set(key, value)`. Keys are compared as `sort.Strings` does, byte
by byte, which on UTF-8 is the order of the code points. -/
def Values.Set (key value : String) : Values → Values
  | [] => [(key, value)]
  | (k, v) :: rest =>
    if key.data < k.data then (key, value) :: (k, v) :: rest
    else if key = k then (key, value) :: rest
    else (k, v) :: Values.Set key value rest

/-- The body of the loop of Go `Values.Encode()`: `&` when the buffer is not
empty, then the escaped key, `=`, and the escaped value. -/
def Values.encodeOne (buf : String) (kv : String × String) : String :=
  (if buf.length > 0 then buf ++ "&" else buf) ++ QueryEscape kv.1 ++ "=" ++ QueryEscape kv.2

/-- Go `Values.Encode()`: the entries in key order, written to an empty buffer. -/
def Values.Encode (v : Values) : String :=
  v.foldl Values.encodeOne ""

/-- The unreserved characters of a URI: ASCII letters, digits, `-`, `.`, `_`, `~`. -/
def unreserved (c : Char) : Bool :=
  ('a' ≤ c ∧ c ≤ 'z') ∨ ('A' ≤ c ∧ c ≤ 'Z') ∨ ('0' ≤ c ∧ c ≤ '9')
    ∨ c = '-' ∨ c = '.' ∨ c = '_' ∨ c = '~'

/-! ## `golang.org/x/oauth2`: `Config.AuthCodeURL` -/

/-- The `url.Values` that Go `Config.AuthCodeURL(state)` builds (no options):
`response_type` and `client_id` always, `redirect_uri`, `scope` and `state`
only when not empty. -/
def Config.authCodeValues (c : Config) (state : String) : Values :=
  let v : Values := Values.Set "client_id" c.ClientID (Values.Set "response_type" "code" [])
  let v := if c.RedirectURL ≠ "" then Values.Set "redirect_uri" c.RedirectURL v else v
  let v := if c.Scopes.length > 0 then Values.Set "scope" (" ".intercalate c.Scopes) v else v
  if state ≠ "" then Values.Set "state" state v else v

/-- What the state adds to the authorization URL: nothing when it is empty,
else the query parameter `state`, escaped. -/
def stateParam (state : String) : String :=
  if state = "" then "" else "&state=" ++ QueryEscape state

/-- Go `Config.AuthCodeURL(state)`: the endpoint, then `?` (or `&` when the
endpoint already has a query), then the encoded values. -/
def Config.AuthCodeURL (c : Config) (state : String) : String :=
  c.Endpoint.AuthURL ++ (if '?' ∈ c.Endpoint.AuthURL.data then "&" else "?")
    ++ Values.Encode (c.authCodeValues state)

/-! ## `square.go` -/

/-- The keys of the map `defaultScopes` of `newConfig` (square.go lines 162-164). -/
def defaultScopes : List String := [ScopeMerchantRead]

/-- Go `newConfig` (square.go lines 148-173): the loop appends every scope that
is not a key of `defaultScopes` to the list that starts with the default. -/
def newConfig (provider : Provider) (scopes : List String) : Config :=
  let c : Config :=
    { ClientID := provider.ClientKey
      ClientSecret := provider.Secret
      RedirectURL := provider.CallbackURL
      Endpoint := { AuthURL := authURL, TokenURL := tokenURL }
      Scopes := [ScopeMerchantRead] }
  scopes.foldl (fun c scope =>
    if scope ∈ defaultScopes then c else { c with Scopes := c.Scopes ++ [scope] }) c

/-- Go `New` (square.go lines 82-91). -/
def New (clientKey secret callbackURL : String) (scopes : List String) : Provider :=
  let p : Provider :=
    { ClientKey := clientKey
      Secret := secret
      CallbackURL := callbackURL
      providerName := "square" }
  { p with config := some (newConfig p scopes) }

/-- A method with the pointer receiver `p *Provider`: from the provider `p`
points to before the call, the result of the call and the provider `p` points
to after it. An assignment to a field of `p` changes the provider handed on;
a call of another method of `p` hands on the provider that method leaves. -/
abbrev Method (α : Type) := Provider → α × Provider

/-- Go `Provider.Name` (square.go lines 104-106), as a method on the receiver. -/
def Method.Name : Method String := fun p =>
  (p.providerName, p)

/-- Go `Provider.SetName` (square.go lines 109-111), as a method on the
receiver: the assignment `p.providerName = name`. -/
def Method.SetName (name : String) : Method Unit := fun p =>
  ((), { p with providerName := name })

/-- Go `Provider.BeginAuth` (square.go lines 121-127), as a method on the
receiver. Calling `AuthCodeURL` through a nil `config` pointer panics. -/
def Method.BeginAuth (state : String) : Method (Outcome (Session × Option String)) := fun p =>
  match p.config with
  | none => (.panic "runtime error: invalid memory address or nil pointer dereference", p)
  | some c =>
    let url := c.AuthCodeURL state
    let session : Session := { AuthURL := url }
    (.ret (session, none), p)

/-- Go `Provider.FetchUser` (square.go lines 130-146), as a method on the
receiver. The type assertion `session.(*Session)` panics unless the dynamic
type is `*Session`; reading a field through a nil `*Session` panics. The
struct literal calls `p.Name()`, and the rest of the body goes on with the
receiver that call leaves. -/
def Method.FetchUser (session : GothSession) : Method (Outcome (User × Option String)) := fun p =>
  match session with
  | .nilInterface =>
    (.panic "interface conversion: goth.Session is nil, not *gothsquare.Session", p)
  | .foreign t =>
    (.panic ("interface conversion: goth.Session is " ++ t ++ ", not *gothsquare.Session"), p)
  | .square none =>
    (.panic "runtime error: invalid memory address or nil pointer dereference", p)
  | .square (some s) =>
    let name := Method.Name p
    let p := name.2
    let user : User :=
      { AccessToken := s.AccessToken
        Provider := name.1
        RefreshToken := s.RefreshToken
        ExpiresAt := s.ExpiresAt
        UserID := s.UserID }
    if user.AccessToken = "" then
      (.ret (user, some (p.providerName ++ " cannot get user information without accessToken")), p)
    else
      (.ret (user, none), p)

/-- What `p.Name()` returns. -/
def Provider.Name (p : Provider) : String := (Method.Name p).1

/-- The provider after `p.SetName(name)`. -/
def Provider.SetName (p : Provider) (name : String) : Provider :=
  (Method.SetName name p).2

/-- What `p.BeginAuth(state)` returns. -/
def Provider.BeginAuth (p : Provider) (state : String) : Outcome (Session × Option String) :=
  (Method.BeginAuth state p).1

/-- What `p.FetchUser(session)` returns. -/
def Provider.FetchUser (p : Provider) (session : GothSession) : Outcome (User × Option String) :=
  (Method.FetchUser session p).1

/-- A token source as `RefreshToken` uses it: `TokenSource(ctx, token)` of the
configuration followed by `Token()`, acting on the outside world `σ` (the
authorization server and the network) and returning a Go pair
`(*oauth2.Token, error)`. It is a parameter of the embedding. -/
abbrev TokenSourceFn (σ : Type) :=
  Option Config → Token → σ → (Option Token × Option String) × σ

/-- Go `Provider.RefreshToken` (square.go lines 176-184), with the world
after the call. -/
def Provider.RefreshToken {σ : Type} (tokenSource : TokenSourceFn σ) (p : Provider)
    (refreshToken : String) (w : σ) : (Option Token × Option String) × σ :=
  let token : Token := { RefreshToken := refreshToken }
  let r := tokenSource p.config token w
  let newToken := r.1.1
  let err := r.1.2
  if err ≠ none then ((none, err), r.2)
  else ((newToken, err), r.2)

/-- A call on a provider made between `SetName` and `Name`. -/
inductive Call where
  | beginAuth (state : String)
  | fetchUser (session : GothSession)
  deriving DecidableEq, Repr

/-- What a call gave back. -/
inductive CallResult where
  | beginAuth (r : Outcome (Session × Option String))
  | fetchUser (r : Outcome (User × Option String))
  deriving DecidableEq, Repr

/-- One call: the provider the method leaves and the result it returns. -/
def Provider.call (p : Provider) : Call → Provider × CallResult
  | .beginAuth state =>
    let r := Method.BeginAuth state p
    (r.2, .beginAuth r.1)
  | .fetchUser session =>
    let r := Method.FetchUser session p
    (r.2, .fetchUser r.1)

/-- A sequence of calls, in order, each on the provider the one before it
left: the provider after the last one and the results. -/
def Provider.run (p : Provider) : List Call → Provider × List CallResult
  | [] => (p, [])
  | c :: cs =>
    let r := p.call c
    let rest := Provider.run r.1 cs
    (rest.1, r.2 :: rest.2)

/-! ## Concrete values used to instantiate the theorems -/

/-- A provider built by `New` with no extra scopes. -/
def exampleProvider : Provider := New "key" "secret" "https://host/cb" []

/-- The configuration of `exampleProvider`, written out. -/
def exampleConfig : Config :=
  { ClientID := "key"
    ClientSecret := "secret"
    RedirectURL := "https://host/cb"
    Endpoint :=
      { AuthURL := "https://connect.squareupsandbox.com/oauth2/authorize"
        TokenURL := "https://connect.squareupsandbox.com/oauth2/token" }
    Scopes := ["MERCHANT_PROFILE_READ"] }

/-- A token source whose exchange is rejected; the world counts the calls. -/
def failingSource : TokenSourceFn Nat :=
  fun _ t n => ((some t, some "invalid_grant"), n + 1)

/-! ## The configuration builder -/

/-- The loop of `newConfig` from any configuration: only `Scopes` changes, by
the scopes that are not default scopes, appended in order. -/
theorem newConfig_loop (scopes : List String) (c : Config) :
    scopes.foldl (fun c scope =>
      if scope ∈ defaultScopes then c else { c with Scopes := c.Scopes ++ [scope] }) c
    = { c with Scopes := c.Scopes ++ scopes.filter (fun s => decide (s ≠ ScopeMerchantRead)) } := by
  induction scopes generalizing c with
  | nil => simp
  | cons s rest ih =>
    rw [List.foldl_cons, ih]
    by_cases h : s = ScopeMerchantRead
    · simp [h, defaultScopes]
    · simp [h, defaultScopes, List.filter_cons]

/-- The configuration `newConfig` builds, field by field. -/
theorem newConfig_eq (p : Provider) (scopes : List String) :
    newConfig p scopes =
      { ClientID := p.ClientKey
        ClientSecret := p.Secret
        RedirectURL := p.CallbackURL
        Endpoint := { AuthURL := authURL, TokenURL := tokenURL }
        Scopes := ScopeMerchantRead :: scopes.filter (fun s => decide (s ≠ ScopeMerchantRead)) } := by
  unfold newConfig
  simp only [newConfig_loop]
  rfl

/-- C1. For every key, secret, callback URL and scope list `S` without
"MERCHANT_PROFILE_READ", the configuration of `New key secret url S` has the
scope list `"MERCHANT_PROFILE_READ" :: S`; with no extra scopes it is exactly
`["MERCHANT_PROFILE_READ"]`. -/
theorem New_scopes_default_then_given (key secret url : String) (S : List String)
    (hS : "MERCHANT_PROFILE_READ" ∉ S) :
    (New key secret url S).config.map Config.Scopes = some ("MERCHANT_PROFILE_READ" :: S)
    ∧ (New key secret url []).config.map Config.Scopes = some ["MERCHANT_PROFILE_READ"] := by
  have hf : S.filter (fun s => decide (s ≠ ScopeMerchantRead)) = S := by
    rw [List.filter_eq_self]
    intro a ha
    have : a ≠ "MERCHANT_PROFILE_READ" := fun h => hS (h ▸ ha)
    simpa [ScopeMerchantRead] using this
  constructor
  · simp only [New, newConfig_eq, hf, Option.map_some']
    rfl
  · simp only [New, newConfig_eq, List.filter_nil, Option.map_some']
    rfl

/-- Instance of C1 at three extra scopes, one of them repeated. -/
theorem New_scopes_default_then_given_witness :
    "MERCHANT_PROFILE_READ" ∉ ["ITEMS_READ", "ORDERS_READ", "ITEMS_READ"]
    ∧ (New "key" "secret" "https://host/cb" ["ITEMS_READ", "ORDERS_READ", "ITEMS_READ"]).config.map
        Config.Scopes
      = some ["MERCHANT_PROFILE_READ", "ITEMS_READ", "ORDERS_READ", "ITEMS_READ"] :=
  ⟨by decide,
   (New_scopes_default_then_given "key" "secret" "https://host/cb"
      ["ITEMS_READ", "ORDERS_READ", "ITEMS_READ"] (by decide)).1⟩

/-- C2. For every scope list `S`, the scope list of `newConfig` is
"MERCHANT_PROFILE_READ" followed by the entries of `S` other than
"MERCHANT_PROFILE_READ" in their order; it holds "MERCHANT_PROFILE_READ"
exactly once, in first place, and every other scope as often as `S` does. -/
theorem newConfig_scopes_dedup_default_only (p : Provider) (S : List String) :
    (newConfig p S).Scopes
      = "MERCHANT_PROFILE_READ" :: S.filter (fun s => decide (s ≠ "MERCHANT_PROFILE_READ"))
    ∧ (newConfig p S).Scopes.count "MERCHANT_PROFILE_READ" = 1
    ∧ (newConfig p S).Scopes.head? = some "MERCHANT_PROFILE_READ"
    ∧ ∀ x : String, x ≠ "MERCHANT_PROFILE_READ" →
        (newConfig p S).Scopes.count x = S.count x := by
  have h : (newConfig p S).Scopes
      = "MERCHANT_PROFILE_READ" :: S.filter (fun s => decide (s ≠ "MERCHANT_PROFILE_READ")) := by
    rw [newConfig_eq]; rfl
  refine ⟨h, ?_, ?_, ?_⟩
  · rw [h, List.count_cons_self, List.count_eq_zero.mpr]
    intro hm
    simpa using (List.mem_filter.mp hm).2
  · rw [h]; rfl
  · intro x hx
    rw [h, List.count_cons_of_ne hx, List.count_filter]
    simpa using hx

/-- Instance of C2 at a scope list that repeats the default and another scope. -/
theorem newConfig_scopes_dedup_default_only_witness :
    "ITEMS_READ" ≠ "MERCHANT_PROFILE_READ"
    ∧ (newConfig {} ["ITEMS_READ", "MERCHANT_PROFILE_READ", "ITEMS_READ", "MERCHANT_PROFILE_READ"]).Scopes.count
        "ITEMS_READ"
      = ["ITEMS_READ", "MERCHANT_PROFILE_READ", "ITEMS_READ", "MERCHANT_PROFILE_READ"].count "ITEMS_READ" :=
  ⟨by decide,
   (newConfig_scopes_dedup_default_only {}
      ["ITEMS_READ", "MERCHANT_PROFILE_READ", "ITEMS_READ", "MERCHANT_PROFILE_READ"]).2.2.2
      "ITEMS_READ" (by decide)⟩

/-! ## `FetchUser` -/

/-- C3. For every provider and every session with a non-empty access token,
`FetchUser` returns no error and a user whose AccessToken, RefreshToken,
ExpiresAt and UserID are the session's, whose Provider is the provider's
`Name()`, and whose other fields are zero. -/
theorem FetchUser_maps_session_fields (p : Provider) (s : Session)
    (hs : s.AccessToken ≠ "") :
    p.FetchUser (.square (some s))
      = .ret ({ AccessToken := s.AccessToken
                RefreshToken := s.RefreshToken
                ExpiresAt := s.ExpiresAt
                UserID := s.UserID
                Provider := p.Name
                RawData := []
                Email := ""
                Name := ""
                FirstName := ""
                LastName := ""
                NickName := ""
                Description := ""
                AvatarURL := ""
                Location := ""
                AccessTokenSecret := ""
                IDToken := "" }, none) := by
  simp [Provider.FetchUser, Method.FetchUser, Method.Name, Provider.Name, hs]

/-- Instance of C3 at the session with tokens "tok_abc", "ref_xyz" and user "u1". -/
theorem FetchUser_maps_session_fields_witness :
    (New "key" "secret" "https://host/cb" []).FetchUser
        (.square (some { AccessToken := "tok_abc", RefreshToken := "ref_xyz", UserID := "u1" }))
      = .ret ({ AccessToken := "tok_abc", RefreshToken := "ref_xyz", UserID := "u1",
                Provider := "square" }, none) :=
  FetchUser_maps_session_fields (New "key" "secret" "https://host/cb" [])
    { AccessToken := "tok_abc", RefreshToken := "ref_xyz", UserID := "u1" } (by decide)

/-- C4, as stated, fails: on a session with an empty access token the user
returned next to the error is not the zero value; it carries the provider
name and the session's refresh token and user id. -/
theorem FetchUser_empty_token_user_not_zero :
    (New "key" "secret" "https://host/cb" []).FetchUser
        (.square (some { RefreshToken := "ref_xyz", UserID := "u1" }))
      = .ret ({ Provider := "square", RefreshToken := "ref_xyz", UserID := "u1" },
              some "square cannot get user information without accessToken")
    ∧ ¬ ∃ e, (New "key" "secret" "https://host/cb" []).FetchUser
        (.square (some { RefreshToken := "ref_xyz", UserID := "u1" })) = .ret ({}, some e) := by
  refine ⟨by decide, ?_⟩
  rintro ⟨e, he⟩
  simp only [Provider.FetchUser, Method.FetchUser, Method.Name, New, if_true, Outcome.ret.injEq,
    Prod.mk.injEq, User.mk.injEq] at he
  exact absurd he.1.2.1 (by decide)

/-- C4, amended. For every provider and every session with an empty access
token, `FetchUser` returns the error "<name> cannot get user information
without accessToken" together with the user record mapped from the session
(empty AccessToken; the session's RefreshToken, ExpiresAt and UserID; the
provider's name; every other field zero). That user is the zero value exactly
when the provider's name and the session's refresh token, expiry and user id
are all zero. -/
theorem FetchUser_empty_token_error_with_user (p : Provider) (s : Session)
    (hs : s.AccessToken = "") :
    p.FetchUser (.square (some s))
      = .ret ({ AccessToken := ""
                RefreshToken := s.RefreshToken
                ExpiresAt := s.ExpiresAt
                UserID := s.UserID
                Provider := p.Name
                RawData := []
                Email := ""
                Name := ""
                FirstName := ""
                LastName := ""
                NickName := ""
                Description := ""
                AvatarURL := ""
                Location := ""
                AccessTokenSecret := ""
                IDToken := "" },
              some (p.Name ++ " cannot get user information without accessToken"))
    ∧ ((∃ e, p.FetchUser (.square (some s)) = .ret ({}, some e))
        ↔ (p.Name = "" ∧ s.RefreshToken = "" ∧ s.ExpiresAt = 0 ∧ s.UserID = "")) := by
  have h : p.FetchUser (.square (some s))
      = .ret ({ AccessToken := ""
                RefreshToken := s.RefreshToken
                ExpiresAt := s.ExpiresAt
                UserID := s.UserID
                Provider := p.Name },
              some (p.Name ++ " cannot get user information without accessToken")) := by
    simp [Provider.FetchUser, Method.FetchUser, Method.Name, hs, Provider.Name]
  refine ⟨h, ?_⟩
  rw [h]
  constructor
  · rintro ⟨e, he⟩
    simp only [Outcome.ret.injEq, Prod.mk.injEq, User.mk.injEq] at he
    exact ⟨he.1.2.1, he.1.2.2.2.2.2.2.2.2.2.2.2.2.2.1, he.1.2.2.2.2.2.2.2.2.2.2.2.2.2.2.1,
      he.1.2.2.2.2.2.2.2.2.1⟩
  · rintro ⟨h1, h2, h3, h4⟩
    exact ⟨_, by rw [h1, h2, h3, h4]⟩

/-- Instance of the amended C4 at a session with a refresh token and an expiry only. -/
theorem FetchUser_empty_token_error_with_user_witness :
    (New "key" "secret" "https://host/cb" []).FetchUser
        (.square (some { AuthURL := "https://x", RefreshToken := "ref_xyz", ExpiresAt := 7 }))
      = .ret ({ RefreshToken := "ref_xyz", ExpiresAt := 7, Provider := "square" },
              some ("square" ++ " cannot get user information without accessToken")) :=
  (FetchUser_empty_token_error_with_user (New "key" "secret" "https://host/cb" [])
    { AuthURL := "https://x", RefreshToken := "ref_xyz", ExpiresAt := 7 } rfl).1

/-- C8, as stated, fails: given a session of another type, `FetchUser` does
not return an error result; the call panics. -/
theorem FetchUser_foreign_session_panics :
    (New "key" "secret" "https://host/cb" []).FetchUser (.foreign "*github.Session")
      = .panic "interface conversion: goth.Session is *github.Session, not *gothsquare.Session"
    ∧ ¬ ∃ r, (New "key" "secret" "https://host/cb" []).FetchUser (.foreign "*github.Session")
        = .ret r := by
  refine ⟨by decide, ?_⟩
  rintro ⟨r, hr⟩
  simp [Provider.FetchUser, Method.FetchUser] at hr

/-- C8, amended. For every provider and every session argument whose dynamic
type is not `*Session`, `FetchUser` returns nothing, neither a user nor an
error: the type assertion panics. -/
theorem FetchUser_wrong_type_panics (p : Provider) (session : GothSession)
    (hty : ∀ s, session ≠ .square s) :
    (∃ msg, p.FetchUser session = .panic msg) ∧ ∀ r, p.FetchUser session ≠ .ret r := by
  cases session with
  | nilInterface =>
    exact ⟨⟨_, rfl⟩, fun r h => by simp [Provider.FetchUser, Method.FetchUser] at h⟩
  | foreign t =>
    exact ⟨⟨_, rfl⟩, fun r h => by simp [Provider.FetchUser, Method.FetchUser] at h⟩
  | square s => exact absurd rfl (hty s)

/-- Instance of the amended C8 at a session of another provider. -/
theorem FetchUser_wrong_type_panics_witness :
    (∃ msg, (New "key" "secret" "https://host/cb" []).FetchUser (.foreign "*github.Session")
        = .panic msg)
    ∧ ∀ r, (New "key" "secret" "https://host/cb" []).FetchUser (.foreign "*github.Session")
        ≠ .ret r :=
  FetchUser_wrong_type_panics (New "key" "secret" "https://host/cb" [])
    (.foreign "*github.Session") (fun s h => by cases h)

/-! ## `Name`, `SetName` and the calls in between -/

/-- The body of `Name` leaves its receiver as it was. -/
theorem Name_receiver_unchanged (p : Provider) : (Method.Name p).2 = p := by
  unfold Method.Name
  rfl

/-- The body of `BeginAuth` leaves its receiver as it was, whether it returns
or panics. -/
theorem BeginAuth_receiver_unchanged (state : String) (p : Provider) :
    (Method.BeginAuth state p).2 = p := by
  unfold Method.BeginAuth
  cases p.config <;> rfl

/-- The body of `FetchUser` leaves its receiver as it was, whether it returns
a user, returns the error, or panics. -/
theorem FetchUser_receiver_unchanged (session : GothSession) (p : Provider) :
    (Method.FetchUser session p).2 = p := by
  unfold Method.FetchUser
  cases session with
  | nilInterface => rfl
  | foreign t => rfl
  | square s =>
    cases s with
    | none => rfl
    | some s =>
      simp only [Name_receiver_unchanged]
      split <;> rfl

/-- A sequence of `BeginAuth` and `FetchUser` calls leaves the provider as it was. -/
theorem run_provider_unchanged (p : Provider) (calls : List Call) : (p.run calls).1 = p := by
  induction calls generalizing p with
  | nil => rfl
  | cons c cs ih =>
    cases c with
    | beginAuth state =>
      simp only [Provider.run, Provider.call, BeginAuth_receiver_unchanged, ih]
    | fetchUser session =>
      simp only [Provider.run, Provider.call, FetchUser_receiver_unchanged, ih]

/-- C7. For every provider and name `n`, `Name()` after `SetName(n)` returns
`n`, also after any sequence of `BeginAuth` and `FetchUser` calls in between:
the body of `SetName` changes the name and nothing else, the bodies of
`BeginAuth` and `FetchUser` hand on the receiver exactly as they got it, and
so does any sequence of them. -/
theorem Name_after_SetName_and_calls (p : Provider) (n : String) (calls : List Call) :
    (Method.Name (Method.SetName n p).2).1 = n
    ∧ (Method.Name ((Method.SetName n p).2.run calls).1).1 = n
    ∧ (Method.SetName n p).2 = { p with providerName := n }
    ∧ (∀ state, (Method.BeginAuth state p).2 = p)
    ∧ (∀ session, (Method.FetchUser session p).2 = p)
    ∧ (p.run calls).1 = p := by
  refine ⟨rfl, ?_, rfl, fun state => BeginAuth_receiver_unchanged state p,
    fun session => FetchUser_receiver_unchanged session p, run_provider_unchanged p calls⟩
  rw [run_provider_unchanged]
  rfl

/-! ## `RefreshToken` -/

/-- C9. For every provider, token source, world and refresh token `r`,
`RefreshToken(r)` asks the token source once, with the provider's
configuration and the token whose only set field is `RefreshToken = r`; when
the source returns an error `e` the result is no token and `e`, when it
returns a token `t` and no error the result is `t` and no error. -/
theorem RefreshToken_relays_token_source {σ : Type} (tokenSource : TokenSourceFn σ)
    (p : Provider) (r : String) (w : σ) :
    (p.RefreshToken tokenSource r w).2
      = (tokenSource p.config
          { AccessToken := "", TokenType := "", RefreshToken := r, Expiry := 0 } w).2
    ∧ (∀ t e, (tokenSource p.config
          { AccessToken := "", TokenType := "", RefreshToken := r, Expiry := 0 } w).1 = (t, some e) →
        (p.RefreshToken tokenSource r w).1 = (none, some e))
    ∧ (∀ t, (tokenSource p.config
          { AccessToken := "", TokenType := "", RefreshToken := r, Expiry := 0 } w).1 = (t, none) →
        (p.RefreshToken tokenSource r w).1 = (t, none)) := by
  refine ⟨?_, ?_, ?_⟩
  · unfold Provider.RefreshToken
    simp only []
    split <;> rfl
  · intro t e h
    unfold Provider.RefreshToken
    simp [h]
  · intro t h
    unfold Provider.RefreshToken
    simp [h]

/-! ## Query escaping is injective -/

/-- A byte that is not to escape is copied. -/
theorem escapeByte_copy (a : Nat) (ea : shouldEscape a = false) :
    escapeByte a = [Char.ofNat a] := by
  unfold escapeByte
  rw [if_neg (by simp [ea])]

/-- An unreserved character is one byte, and that byte is not escaped. -/
theorem unreserved_byte (c : Char) (h : unreserved c = true) :
    c.toNat < 128 ∧ shouldEscape c.toNat = false := by
  have key : ∀ n, n < 128 → (97 ≤ n ∧ n ≤ 122) ∨ (65 ≤ n ∧ n ≤ 90) ∨ (48 ≤ n ∧ n ≤ 57)
      ∨ n = 45 ∨ n = 46 ∨ n = 95 ∨ n = 126 → shouldEscape n = false := by decide
  have hn : (97 ≤ c.toNat ∧ c.toNat ≤ 122) ∨ (65 ≤ c.toNat ∧ c.toNat ≤ 90)
      ∨ (48 ≤ c.toNat ∧ c.toNat ≤ 57)
      ∨ c.toNat = 45 ∨ c.toNat = 46 ∨ c.toNat = 95 ∨ c.toNat = 126 := by
    unfold unreserved at h
    simp only [decide_eq_true_eq] at h
    rcases h with h | h | h | h | h | h | h
    · exact Or.inl h
    · exact Or.inr (Or.inl h)
    · exact Or.inr (Or.inr (Or.inl h))
    · subst h; decide
    · subst h; decide
    · subst h; decide
    · subst h; decide
  have hlt : c.toNat < 128 := by omega
  exact ⟨hlt, key _ hlt hn⟩

/-- Escaping leaves a string of unreserved characters as it is. -/
theorem QueryEscape_unreserved (s : String) (h : ∀ c ∈ s.data, unreserved c = true) :
    QueryEscape s = s := by
  apply String.ext
  unfold QueryEscape goBytes
  simp only
  obtain ⟨l⟩ := s
  simp only at h ⊢
  induction l with
  | nil => rfl
  | cons c t ih =>
    have hc := unreserved_byte c (h c (List.mem_cons_self _ _))
    have hb : utf8Bytes c.toNat = [c.toNat] := by
      unfold utf8Bytes
      rw [if_pos hc.1]
    simp only [List.flatMap_cons, hb, List.cons_append, List.nil_append,
      escapeByte_copy _ hc.2, Char.ofNat_toNat, List.cons.injEq, true_and]
    exact ih (fun x hx => h x (List.mem_cons_of_mem _ hx))

/-- After one step of the loop of `Encode` the buffer is not empty. -/
theorem encodeOne_length_pos (buf : String) (kv : String × String) :
    0 < (Values.encodeOne buf kv).length := by
  unfold Values.encodeOne
  simp only [String.length_append]
  have : "=".length = 1 := by decide
  omega

/-- The encoding of entries followed by one more. -/
theorem Encode_concat (v : Values) (kv : String × String) :
    Values.Encode (v ++ [kv]) = Values.encodeOne (Values.Encode v) kv := by
  unfold Values.Encode
  rw [List.foldl_append]
  rfl

/-- The encoding of at least one entry is not empty. -/
theorem Encode_length_pos (v : Values) (hv : v ≠ []) : 0 < (Values.Encode v).length := by
  rcases List.eq_nil_or_concat v with h | ⟨l, b, h⟩
  · exact absurd h hv
  · rw [h, List.concat_eq_append, Encode_concat]
    exact encodeOne_length_pos _ _

/-- The values of the authorization URL, in the order `Encode` writes them. -/
theorem authCodeValues_eq (c : Config) (state : String) :
    c.authCodeValues state =
      [("client_id", c.ClientID)]
      ++ (if c.RedirectURL = "" then [] else [("redirect_uri", c.RedirectURL)])
      ++ [("response_type", "code")]
      ++ (if c.Scopes = [] then [] else [("scope", " ".intercalate c.Scopes)])
      ++ (if state = "" then [] else [("state", state)]) := by
  unfold Config.authCodeValues
  by_cases h1 : c.RedirectURL = "" <;> by_cases h2 : c.Scopes = [] <;> by_cases h3 : state = "" <;>
    simp +decide [h1, h2, h3, Values.Set, List.length_pos]

/-- The authorization URL is the URL for the empty state followed by what the
state adds. -/
theorem AuthCodeURL_state (c : Config) (state : String) :
    c.AuthCodeURL state = c.AuthCodeURL "" ++ stateParam state := by
  unfold Config.AuthCodeURL stateParam
  by_cases hs : state = ""
  · simp [hs]
  · have hv : c.authCodeValues state = c.authCodeValues "" ++ [("state", state)] := by
      rw [authCodeValues_eq c state, authCodeValues_eq c ""]
      simp [hs]
    have hne : c.authCodeValues "" ≠ [] := by
      rw [authCodeValues_eq]
      simp
    have hq : QueryEscape "state" = "state" := by decide
    rw [if_neg hs, hv, Encode_concat]
    unfold Values.encodeOne
    rw [if_pos (Encode_length_pos _ hne), hq]
    apply String.ext
    simp only [String.data_append, List.append_assoc]
    rfl

/-- The authorization URL of a configuration, written out. -/
theorem AuthCodeURL_eq (c : Config) (state : String) :
    c.AuthCodeURL state =
      c.Endpoint.AuthURL ++ (if '?' ∈ c.Endpoint.AuthURL.data then "&" else "?")
        ++ "client_id=" ++ QueryEscape c.ClientID
        ++ (if c.RedirectURL = "" then "" else "&redirect_uri=" ++ QueryEscape c.RedirectURL)
        ++ "&response_type=code"
        ++ (if c.Scopes = [] then "" else "&scope=" ++ QueryEscape (" ".intercalate c.Scopes))
        ++ stateParam state := by
  rw [AuthCodeURL_state]
  congr 1
  unfold Config.AuthCodeURL
  rw [authCodeValues_eq]
  have e1 : QueryEscape "client_id" = "client_id" := by decide
  have e2 : QueryEscape "redirect_uri" = "redirect_uri" := by decide
  have e3 : QueryEscape "response_type" = "response_type" := by decide
  have e4 : QueryEscape "scope" = "scope" := by decide
  have e5 : QueryEscape "code" = "code" := by decide
  have l1 : "=".length = 1 := by decide
  by_cases h1 : c.RedirectURL = "" <;> by_cases h2 : c.Scopes = [] <;>
    simp only [h1, h2, if_true, if_false, List.append_nil, List.singleton_append, List.cons_append,
      List.nil_append, Values.Encode, List.foldl, Values.encodeOne, e1, e2, e3, e4, e5,
      String.length_append, l1] <;>
    (apply String.ext
     simp +arith +decide only [String.data_append, List.append_assoc, String.length_append, l1,
       if_true]
     simp)

/-- C5, as stated, fails: with the empty state the authorization URL has no
`state=` in it, and with an empty callback URL it has no `redirect_uri=`. -/
theorem BeginAuth_empty_state_no_state_param :
    ((New "key" "secret" "https://host/cb" []).BeginAuth ""
      = .ret ({ AuthURL := "https://connect.squareupsandbox.com/oauth2/authorize?client_id=key&redirect_uri=https%3A%2F%2Fhost%2Fcb&response_type=code&scope=MERCHANT_PROFILE_READ" }, none)
     ∧ ¬ ("state=".data <:+: "https://connect.squareupsandbox.com/oauth2/authorize?client_id=key&redirect_uri=https%3A%2F%2Fhost%2Fcb&response_type=code&scope=MERCHANT_PROFILE_READ".data))
    ∧ ((New "key" "secret" "" []).BeginAuth "nonce123"
      = .ret ({ AuthURL := "https://connect.squareupsandbox.com/oauth2/authorize?client_id=key&response_type=code&scope=MERCHANT_PROFILE_READ&state=nonce123" }, none)
     ∧ ¬ ("redirect_uri=".data <:+: "https://connect.squareupsandbox.com/oauth2/authorize?client_id=key&response_type=code&scope=MERCHANT_PROFILE_READ&state=nonce123".data)) := by
  set_option maxRecDepth 100000 in decide

/-- C5, amended. For every provider built by `New key secret url scopes` and
every state, `BeginAuth` returns no error and a session whose authURL is the
authorization endpoint, `?client_id=<key>`, `&redirect_uri=<url>` when the
callback URL is not empty, `&response_type=code`, `&scope=<the scope list
joined by spaces>`, and `&state=<state>` when the state is not empty, every
value query-escaped; escaping leaves a value of unreserved characters as
given. -/
theorem BeginAuth_authURL (key secret url : String) (scopes : List String) (state : String) :
    (New key secret url scopes).BeginAuth state
      = .ret ({ AuthURL :=
                  "https://connect.squareupsandbox.com/oauth2/authorize"
                    ++ "?client_id=" ++ QueryEscape key
                    ++ (if url = "" then "" else "&redirect_uri=" ++ QueryEscape url)
                    ++ "&response_type=code"
                    ++ "&scope=" ++ QueryEscape (" ".intercalate
                        ("MERCHANT_PROFILE_READ"
                          :: scopes.filter (fun s => decide (s ≠ "MERCHANT_PROFILE_READ"))))
                    ++ (if state = "" then "" else "&state=" ++ QueryEscape state) }, none)
    ∧ ∀ v : String, (∀ c ∈ v.data, unreserved c = true) → QueryEscape v = v := by
  refine ⟨?_, QueryEscape_unreserved⟩
  have hq : ¬ '?' ∈ authURL.data := by decide
  simp only [Provider.BeginAuth, Method.BeginAuth, New, newConfig_eq, AuthCodeURL_eq, if_neg hq,
    stateParam]
  simp only [authURL, ScopeMerchantRead, reduceCtorEq, if_false, String.append_assoc]
  have hj : ∀ x : String, "?" ++ ("client_id=" ++ x) = "?client_id=" ++ x := fun x => by
    rw [← String.append_assoc]
    rfl
  rw [hj]

/-- Instance of the amended C5 at the value "nonce123". -/
theorem BeginAuth_authURL_witness :
    (∀ c ∈ "nonce123".data, unreserved c = true) ∧ QueryEscape "nonce123" = "nonce123" :=
  ⟨by decide, (BeginAuth_authURL "key" "secret" "https://host/cb" [] "nonce123").2 "nonce123"
    (by decide)⟩

/-- C10. For every provider with a configuration and every state, the session
`BeginAuth` returns has only its authURL set (empty access token, refresh
token and user id), `FetchUser` on it returns the incomplete-session error,
and `FetchUser` returns without error only on a session with an access token. -/
theorem BeginAuth_session_incomplete (p : Provider) (c : Config) (state : String)
    (hc : p.config = some c) :
    p.BeginAuth state
      = .ret ({ AuthURL := c.AuthCodeURL state, AccessToken := "", RefreshToken := "",
                ExpiresAt := 0, UserID := "" }, none)
    ∧ p.FetchUser (.square (some { AuthURL := c.AuthCodeURL state }))
      = .ret ({ Provider := p.Name },
              some (p.Name ++ " cannot get user information without accessToken"))
    ∧ ∀ (s : Session) (u : User), p.FetchUser (.square (some s)) = .ret (u, none) →
        s.AccessToken ≠ "" := by
  refine ⟨?_, ?_, ?_⟩
  · simp [Provider.BeginAuth, Method.BeginAuth, hc]
  · simp [Provider.FetchUser, Method.FetchUser, Method.Name, Provider.Name]
  · intro s u h hs
    simp [Provider.FetchUser, Method.FetchUser, Method.Name, hs] at h

/-- Instance of C10 at the state "nonce123". -/
theorem BeginAuth_session_incomplete_witness :
    exampleProvider.config = some exampleConfig
    ∧ exampleProvider.BeginAuth "nonce123"
      = .ret ({ AuthURL := exampleConfig.AuthCodeURL "nonce123", AccessToken := "",
                RefreshToken := "", ExpiresAt := 0, UserID := "" }, none) :=
  ⟨by decide, (BeginAuth_session_incomplete exampleProvider exampleConfig "nonce123" (by decide)).1⟩

/-- Instance of C9 at a token source that rejects the exchange. -/
theorem RefreshToken_relays_token_source_witness :
    (failingSource exampleProvider.config
        { AccessToken := "", TokenType := "", RefreshToken := "ref_xyz", Expiry := 0 } 0).1
      = (some { RefreshToken := "ref_xyz" }, some "invalid_grant")
    ∧ (exampleProvider.RefreshToken failingSource "ref_xyz" 0).1 = (none, some "invalid_grant") :=
  ⟨by decide,
   (RefreshToken_relays_token_source failingSource exampleProvider "ref_xyz" 0).2.1
     (some { RefreshToken := "ref_xyz" }) "invalid_grant" (by decide)⟩

end gothsquare
